import Mathlib

/-!
Verification of the accumulation / deduplication transform of the
WeatherImpactOnCarAccidents pipeline.

The embedding models, over lists of typed records:

* the accumulator of `transform_UPDATED.py::run_transformation`
  (lines 290-355): concatenate `existing ++ incoming`, drop duplicate
  natural keys keeping the last occurrence (`drop_duplicates(..., keep='last')`),
  then sort ascending by the primary timestamp column (`sort_values`);
  on the first run (master file absent) the result is the freshly
  normalized batch unchanged;
* the two normalizers `WeatherTransformer.transform` and
  `CollisionsTransformer.transform` of `transform_UPDATED.py` at row level
  (borough cleanup, numeric fill-with-zero, derived category / severity
  rules, row dropping, intra-batch `drop_duplicates` with default
  `keep='first'`);
* the legacy normalizers `transform_weather_data` and
  `transform_collision_data` of `src/transform.py` (explicit empty-input
  guard, np.select severity / category rules, borough mapping with OTHER
  dropped).

Modelling conventions: pandas timestamps are opaque integers (only their
order matters to the code under verification); float measurements are
rationals; nullable cells are `Option`.  `sort_values` on the single
timestamp key is specified by its contract (`SortSpec`: the output is a
permutation of the input, ascending in the key); the pandas default
`kind='quicksort'` is documented as not stable, so the relative order of
rows sharing a timestamp is implementation-defined, and every property that
depends on the sort is quantified over all functions satisfying the
contract.  `sortByTs` (a stable `List.insertionSort`) is one conforming
instance, used to evaluate concrete cases and for properties that are
insensitive to tie order.  Display-precision
rounding steps (`round(2)`, visibility bucketing to hundreds, coordinate
`round(9)`) are floating-point presentation details not modelled and not
referenced by any verified property.  Calendar-derived columns
(`hour_nyc`, `day_of_week`, `season`, ...) are pure functions of the
timestamp that no verified property mentions; they are omitted from the
record types.
-/

/-! ## Generic accumulator (transform_UPDATED.py, run_transformation) -/

universe u v

variable {α : Type u} {κ : Type v}

/-- Boolean test that some row of `l` has natural key `k`. -/
def keyMem [DecidableEq κ] (key : α → κ) (k : κ) (l : List α) : Bool :=
  l.any fun r => decide (key r = k)

/-- Model of `DataFrame.drop_duplicates(subset=key, keep='last')`: a row is
kept iff no later row carries the same natural key; the relative order of
the kept rows is preserved. -/
def dedupKeepLast [DecidableEq κ] (key : α → κ) : List α → List α
  | [] => []
  | r :: rs =>
    if keyMem key (key r) rs then dedupKeepLast key rs
    else r :: dedupKeepLast key rs

/-- Worker for `dedupKeepFirst`: `seen` is the set of keys already emitted. -/
def dedupKeepFirstAux [DecidableEq κ] (key : α → κ) (seen : List κ) :
    List α → List α
  | [] => []
  | r :: rs =>
    if key r ∈ seen then dedupKeepFirstAux key seen rs
    else r :: dedupKeepFirstAux key (key r :: seen) rs

/-- Model of `DataFrame.drop_duplicates(subset=key)` with the pandas default
`keep='first'`: the first row of each natural key is kept, later ones are
dropped, relative order preserved. -/
def dedupKeepFirst [DecidableEq κ] (key : α → κ) (l : List α) : List α :=
  dedupKeepFirstAux key [] l

/-- Comparison used by `sort_values(<timestamp column>)`. -/
def tsLe (ts : α → Int) (a b : α) : Prop := ts a ≤ ts b

instance (ts : α → Int) : DecidableRel (tsLe ts) := fun a b =>
  inferInstanceAs (Decidable (ts a ≤ ts b))

instance (ts : α → Int) : IsTotal α (tsLe ts) := ⟨fun a b => Int.le_total _ _⟩

instance (ts : α → Int) : IsTrans α (tsLe ts) := ⟨fun _ _ _ h h2 => le_trans h h2⟩

/-- Model of `DataFrame.sort_values(<timestamp column>)` as a stable sort on
the timestamp. -/
def sortByTs (ts : α → Int) (l : List α) : List α := l.insertionSort (tsLe ts)

/-- The list is ascending in the timestamp between adjacent rows. -/
def sortedByTs (ts : α → Int) (l : List α) : Prop := List.Chain' (tsLe ts) l

/-- Boolean check of `sortedByTs`. -/
def sortedByTsB (ts : α → Int) : List α → Bool
  | [] => true
  | [_] => true
  | a :: b :: l => decide (ts a ≤ ts b) && sortedByTsB ts (b :: l)

theorem sortedByTs_iff_B (ts : α → Int) :
    ∀ l : List α, sortedByTs ts l ↔ sortedByTsB ts l = true := by
  intro l
  induction l with
  | nil => simp [sortedByTs, sortedByTsB]
  | cons a l ih =>
    cases l with
    | nil => simp [sortedByTs, sortedByTsB]
    | cons b l2 =>
      rw [sortedByTs, List.chain'_cons, sortedByTsB, Bool.and_eq_true]
      constructor
      · rintro ⟨h1, h2⟩
        exact ⟨decide_eq_true h1, ih.1 h2⟩
      · rintro ⟨h1, h2⟩
        exact ⟨of_decide_eq_true h1, ih.2 h2⟩

instance (ts : α → Int) (l : List α) : Decidable (sortedByTs ts l) :=
  decidable_of_iff _ (sortedByTs_iff_B ts l).symm

/-- Strict timestamp comparison. -/
def tsLt (ts : α → Int) (a b : α) : Prop := ts a < ts b

instance (ts : α → Int) : DecidableRel (tsLt ts) := fun a b =>
  inferInstanceAs (Decidable (ts a < ts b))

instance (ts : α → Int) : IsTrans α (tsLt ts) :=
  ⟨fun _ _ _ h h2 => lt_trans h h2⟩

/-- The list is strictly increasing in the timestamp (no two rows share a
timestamp). -/
def strictSortedByTs (ts : α → Int) (l : List α) : Prop :=
  List.Chain' (tsLt ts) l

/-- Boolean check of `strictSortedByTs`. -/
def strictSortedByTsB (ts : α → Int) : List α → Bool
  | [] => true
  | [_] => true
  | a :: b :: l => decide (ts a < ts b) && strictSortedByTsB ts (b :: l)

theorem strictSortedByTs_iff_B (ts : α → Int) :
    ∀ l : List α, strictSortedByTs ts l ↔ strictSortedByTsB ts l = true := by
  intro l
  induction l with
  | nil => simp [strictSortedByTs, strictSortedByTsB]
  | cons a l ih =>
    cases l with
    | nil => simp [strictSortedByTs, strictSortedByTsB]
    | cons b l2 =>
      rw [strictSortedByTs, List.chain'_cons, strictSortedByTsB,
        Bool.and_eq_true]
      constructor
      · rintro ⟨h1, h2⟩
        exact ⟨decide_eq_true h1, ih.1 h2⟩
      · rintro ⟨h1, h2⟩
        exact ⟨of_decide_eq_true h1, ih.2 h2⟩

instance (ts : α → Int) (l : List α) : Decidable (strictSortedByTs ts l) :=
  decidable_of_iff _ (strictSortedByTs_iff_B ts l).symm

/-- No two rows of `l` share a natural key. -/
def KeyNodup [DecidableEq κ] (key : α → κ) (l : List α) : Prop :=
  (l.map key).Nodup

instance [DecidableEq κ] (key : α → κ) (l : List α) :
    Decidable (KeyNodup key l) :=
  inferInstanceAs (Decidable (List.Nodup _))

/-- The accumulation step of `run_transformation` (both the weather block,
lines 290-321, and the collisions block, lines 324-355, instantiate this
with their domain's natural key and timestamp):

* master file absent (first run): the result is the incoming batch as-is;
* otherwise: `pd.concat([existing, incoming])`, then
  `drop_duplicates(subset=key, keep='last')`, then
  `sort_values(<timestamp>)`. -/
def accumulate [DecidableEq κ] (key : α → κ) (ts : α → Int)
    (existing : Option (List α)) (incoming : List α) : List α :=
  match existing with
  | none => incoming
  | some ex => sortByTs ts (dedupKeepLast key (ex ++ incoming))

/-- Contract of `DataFrame.sort_values(<timestamp column>)`: the output is a
permutation of the input, ascending in the timestamp.  Nothing more is
promised by the call sites (run_transformation lines 307 and 341 use the
default `kind='quicksort'`, which pandas documents as not stable), so the
relative order of rows sharing a timestamp is implementation-defined. -/
def SortSpec (ts : α → Int) (sortFn : List α → List α) : Prop :=
  ∀ l : List α, List.Perm (sortFn l) l ∧ List.Sorted (tsLe ts) (sortFn l)

/-- The accumulation step of `run_transformation` with the sort function
left as a parameter, so that sort-dependent properties can be stated for
every function satisfying `SortSpec`; `accumulate` is the instance whose
sort is the stable `sortByTs`. -/
def accumulateWith [DecidableEq κ] (key : α → κ)
    (sortFn : List α → List α) (existing : Option (List α))
    (incoming : List α) : List α :=
  match existing with
  | none => incoming
  | some ex => sortFn (dedupKeepLast key (ex ++ incoming))

/-- Model of Python `str.upper` (`String.toUpper` is defined through
non-reducing auxiliaries; this character-list version has the same value). -/
def upperStr (s : String) : String := String.mk (s.data.map Char.toUpper)

/-- Model of Python `str.strip`: drop leading and trailing whitespace. -/
def stripStr (s : String) : String :=
  String.mk (((s.data.dropWhile Char.isWhitespace).reverse.dropWhile
    Char.isWhitespace).reverse)

/-! ## Weather normalizer (transform_UPDATED.py, WeatherTransformer) -/

/-- Raw weather row after column-name normalization, with the timestamp
already parsed; measurement cells are nullable (`pd.to_numeric(...,
errors='coerce')` turns unparsable cells into null). -/
structure WeatherRaw where
  borough : String
  datetime : Int
  temperature_2m : Option ℚ
  precipitation : Option ℚ
  visibility : Option ℚ
  rain : Option ℚ
  showers : Option ℚ
  snowfall : Option ℚ
  wind_speed_10m : Option ℚ
deriving DecidableEq

/-- Cleaned weather row as produced by `WeatherTransformer.transform`. -/
structure WeatherRow where
  borough : String
  datetime : Int
  temperature_2m : ℚ
  precipitation : ℚ
  visibility : ℚ
  rain : ℚ
  showers : ℚ
  snowfall : ℚ
  wind_speed_10m : ℚ
  weather_category : String
  weather_severity : String
deriving DecidableEq

/-- Rule chain of `WeatherTransformer._categorize_weather` (lines 97-117):
SNOW, then RAIN (on rain + showers + precipitation), then FOG, then WIND,
else CLEAR; the first true predicate wins. -/
def categorizeWeather (snowfall rain showers precipitation visibility
    wind_speed : ℚ) : String :=
  if snowfall > 0 then "SNOW"
  else if rain + showers + precipitation > 0 then "RAIN"
  else if visibility < 5000 then "FOG"
  else if wind_speed > 30 then "WIND"
  else "CLEAR"

/-- Rule chain of `WeatherTransformer._assess_severity` (lines 119-145). -/
def assessWeatherSeverity (snowfall rain showers precipitation visibility
    wind_speed : ℚ) : String :=
  if snowfall > 5 then "HEAVY"
  else if rain + showers + precipitation > 10 then "HEAVY"
  else if rain + showers + precipitation > 5 then "MODERATE"
  else if visibility < 1000 then "SEVERE"
  else if visibility < 3000 then "MODERATE"
  else if wind_speed > 50 then "SEVERE"
  else if wind_speed > 30 then "MODERATE"
  else "LIGHT"

/-- Row-level part of `WeatherTransformer.transform`: numeric cells filled
with 0 (`fillna(0)`), derived category and severity, borough upper-cased and
stripped. -/
def weatherClean (r : WeatherRaw) : WeatherRow :=
  let sn := r.snowfall.getD 0
  let ra := r.rain.getD 0
  let sh := r.showers.getD 0
  let pr := r.precipitation.getD 0
  let vi := r.visibility.getD 0
  let wi := r.wind_speed_10m.getD 0
  { borough := stripStr (upperStr r.borough)
    datetime := r.datetime
    temperature_2m := r.temperature_2m.getD 0
    precipitation := pr
    visibility := vi
    rain := ra
    showers := sh
    snowfall := sn
    wind_speed_10m := wi
    weather_category := categorizeWeather sn ra sh pr vi wi
    weather_severity := assessWeatherSeverity sn ra sh pr vi wi }

/-- Natural key of the weather domain: (borough, datetime). -/
def weatherKey (r : WeatherRow) : String × Int := (r.borough, r.datetime)

/-- Timestamp of the weather domain. -/
def weatherTs (r : WeatherRow) : Int := r.datetime

/-- The whole of `WeatherTransformer.transform` (lines 24-85): per-row
cleaning and derivation followed by
`drop_duplicates(subset=['borough', 'datetime'])` (default `keep='first'`). -/
def weatherTransform (l : List WeatherRaw) : List WeatherRow :=
  dedupKeepFirst weatherKey (l.map weatherClean)

/-- Weather instance of the accumulator (run_transformation lines 290-321). -/
def accumulateWeather (existing : Option (List WeatherRow))
    (incoming : List WeatherRow) : List WeatherRow :=
  accumulate weatherKey weatherTs existing incoming

/-! ## Collisions normalizer (transform_UPDATED.py, CollisionsTransformer) -/

/-- Raw collision row after column normalization and renaming, with the
crash timestamp already composed from `crash_date`/`crash_time`
(`none` = either identifier or timestamp failed to parse / was missing). -/
structure CollisionRaw where
  collision_id : Option Int
  crash_datetime : Option Int
  borough : Option String
  persons_injured : Option Int
  persons_killed : Option Int
  pedestrians_injured : Option Int
  pedestrians_killed : Option Int
  cyclists_injured : Option Int
  cyclists_killed : Option Int
  motorists_injured : Option Int
  motorists_killed : Option Int
  latitude : Option ℚ
  longitude : Option ℚ
deriving DecidableEq

/-- Collision row after borough filtering, count coercion and the
`dropna(subset=['collision_id', 'crash_datetime'])` step, before the
derived columns are added. -/
structure CollisionMid where
  collision_id : Int
  crash_datetime : Int
  borough : String
  persons_injured : Int
  persons_killed : Int
  pedestrians_injured : Int
  pedestrians_killed : Int
  cyclists_injured : Int
  cyclists_killed : Int
  motorists_injured : Int
  motorists_killed : Int
  latitude : Option ℚ
  longitude : Option ℚ
deriving DecidableEq

/-- Fully transformed collision row. -/
structure CollisionRow where
  collision_id : Int
  crash_datetime : Int
  borough : String
  persons_injured : Int
  persons_killed : Int
  pedestrians_injured : Int
  pedestrians_killed : Int
  cyclists_injured : Int
  cyclists_killed : Int
  motorists_injured : Int
  motorists_killed : Int
  latitude : Option ℚ
  longitude : Option ℚ
  has_injuries : Bool
  has_fatalities : Bool
  total_involved : Int
  severity_level : String
deriving DecidableEq

/-- Modelled from the spec: `src/config.py` (imported by
`transform_UPDATED.py` for `BOROUGHS`) is not among the source files; per
the spec the valid regions are the five fixed enumerated zones plus
UNKNOWN, and `src/extract.py` line 20 lists the same five boroughs.
`CollisionsTransformer.transform` keeps a row iff its cleaned borough is in
`list(BOROUGHS.keys()) + ['UNKNOWN']`. -/
def validBoroughs : List String :=
  ["MANHATTAN", "BROOKLYN", "QUEENS", "BRONX", "STATEN ISLAND", "UNKNOWN"]

/-- Borough cleanup of `CollisionsTransformer.transform` line 187:
`fillna('UNKNOWN').str.upper().str.strip()`. -/
def cleanCollisionBorough (b : Option String) : String :=
  stripStr (upperStr (b.getD "UNKNOWN"))

/-- Severity rule chain of `CollisionsTransformer._determine_severity`
(lines 252-262): fatality count first, then injury thresholds, then total
involvement, else NONE. -/
def collisionSeverity (persons_killed persons_injured total_involved : Int) :
    String :=
  if persons_killed > 0 then "FATAL"
  else if persons_injured ≥ 3 then "SEVERE"
  else if persons_injured > 0 then "MODERATE"
  else if total_involved > 0 then "MINOR"
  else "NONE"

/-- Steps of `CollisionsTransformer.transform` before deduplication, in
source order: borough cleanup and filtering against the valid list
(lines 186-189), count coercion with missing-as-0 (lines 199-202), and
`dropna(subset=['collision_id', 'crash_datetime'])` (line 210). -/
def collisionPreDedup (l : List CollisionRaw) : List CollisionMid :=
  (l.filter fun r => decide (cleanCollisionBorough r.borough ∈ validBoroughs)).filterMap
    fun r =>
      match r.collision_id, r.crash_datetime with
      | some cid, some dt =>
        some
          { collision_id := cid
            crash_datetime := dt
            borough := cleanCollisionBorough r.borough
            persons_injured := r.persons_injured.getD 0
            persons_killed := r.persons_killed.getD 0
            pedestrians_injured := r.pedestrians_injured.getD 0
            pedestrians_killed := r.pedestrians_killed.getD 0
            cyclists_injured := r.cyclists_injured.getD 0
            cyclists_killed := r.cyclists_killed.getD 0
            motorists_injured := r.motorists_injured.getD 0
            motorists_killed := r.motorists_killed.getD 0
            latitude := r.latitude
            longitude := r.longitude }
      | _, _ => none

/-- Sum of the eight involvement counts (lines 217-226). -/
def collisionTotal (m : CollisionMid) : Int :=
  m.persons_injured + m.persons_killed + m.pedestrians_injured +
    m.pedestrians_killed + m.cyclists_injured + m.cyclists_killed +
    m.motorists_injured + m.motorists_killed

/-- Derived columns added after deduplication (lines 214-228). -/
def deriveCollision (m : CollisionMid) : CollisionRow :=
  { collision_id := m.collision_id
    crash_datetime := m.crash_datetime
    borough := m.borough
    persons_injured := m.persons_injured
    persons_killed := m.persons_killed
    pedestrians_injured := m.pedestrians_injured
    pedestrians_killed := m.pedestrians_killed
    cyclists_injured := m.cyclists_injured
    cyclists_killed := m.cyclists_killed
    motorists_injured := m.motorists_injured
    motorists_killed := m.motorists_killed
    latitude := m.latitude
    longitude := m.longitude
    has_injuries := decide (m.persons_injured > 0)
    has_fatalities := decide (m.persons_killed > 0)
    total_involved := collisionTotal m
    severity_level := collisionSeverity m.persons_killed m.persons_injured
      (collisionTotal m) }

/-- Natural key of the collisions domain. -/
def collisionKey (r : CollisionRow) : Int := r.collision_id

/-- Timestamp of the collisions domain. -/
def collisionTs (r : CollisionRow) : Int := r.crash_datetime

/-- The whole of `CollisionsTransformer.transform` (lines 155-231):
pre-dedup cleaning, `drop_duplicates(subset=['collision_id'])` (default
`keep='first'`, line 211), then the derived columns. -/
def collisionsTransform (l : List CollisionRaw) : List CollisionRow :=
  (dedupKeepFirst (fun m : CollisionMid => m.collision_id)
      (collisionPreDedup l)).map deriveCollision

/-- Collisions instance of the accumulator (run_transformation 324-355). -/
def accumulateCollisions (existing : Option (List CollisionRow))
    (incoming : List CollisionRow) : List CollisionRow :=
  accumulate collisionKey collisionTs existing incoming

/-! ## Legacy normalizers (src/transform.py) -/

/-- Weather row of the legacy `transform_weather_data`: borough upper-cased
(no strip), category by `np.select([snowfall>0, rain>0], [SNOW, RAIN],
CLEAR)`, severity by precipitation thresholds (lines 55-76). -/
structure WeatherPyRow where
  borough : String
  datetime : Int
  temperature_2m : ℚ
  precipitation : ℚ
  visibility : ℚ
  rain : ℚ
  showers : ℚ
  snowfall : ℚ
  wind_speed_10m : ℚ
  weather_category : String
  weather_severity : String
deriving DecidableEq

/-- Row-level cleaning of `transform_weather_data`. -/
def weatherPyClean (r : WeatherRaw) : WeatherPyRow :=
  let sn := r.snowfall.getD 0
  let ra := r.rain.getD 0
  let pr := r.precipitation.getD 0
  { borough := upperStr r.borough
    datetime := r.datetime
    temperature_2m := r.temperature_2m.getD 0
    precipitation := pr
    visibility := r.visibility.getD 0
    rain := ra
    showers := r.showers.getD 0
    snowfall := sn
    wind_speed_10m := r.wind_speed_10m.getD 0
    weather_category := if sn > 0 then "SNOW" else if ra > 0 then "RAIN" else "CLEAR"
    weather_severity :=
      if pr ≥ 10 then "SEVERE" else if pr ≥ 5 then "MODERATE" else "LIGHT" }

/-- Legacy `transform_weather_data` (src/transform.py lines 14-79): empty
input returns an empty result immediately (lines 17-19), otherwise per-row
cleaning; there is no deduplication step. -/
def transformWeatherData (l : List WeatherRaw) : List WeatherPyRow :=
  match l with
  | [] => []
  | l => l.map weatherPyClean

/-- Borough mapping of `transform_collision_data` (lines 113-123):
`astype(str).upper().strip()`, mapped onto the five canonical names (with
the `STATEN IS` alias), anything else (including missing, which `astype(str)`
renders as a non-matching string) becomes OTHER. -/
def pyCollisionBorough (b : Option String) : String :=
  match b with
  | none => "OTHER"
  | some s =>
    let u := stripStr (upperStr s)
    if u = "MANHATTAN" then "MANHATTAN"
    else if u = "BROOKLYN" then "BROOKLYN"
    else if u = "QUEENS" then "QUEENS"
    else if u = "BRONX" then "BRONX"
    else if u = "STATEN ISLAND" then "STATEN ISLAND"
    else if u = "STATEN IS" then "STATEN ISLAND"
    else "OTHER"

/-- Collision row of the legacy `transform_collision_data`. -/
structure CollisionPyRow where
  collision_id : Option Int
  crash_datetime : Option Int
  borough : String
  persons_injured : Int
  persons_killed : Int
  pedestrians_injured : Int
  pedestrians_killed : Int
  cyclists_injured : Int
  cyclists_killed : Int
  motorists_injured : Int
  motorists_killed : Int
  severity_level : String
  involved_pedestrian : Bool
  involved_cyclist : Bool
deriving DecidableEq

/-- Row-level cleaning of `transform_collision_data`: severity by
`np.select([killed>0, injured>=3, injured>0], [FATAL, SEVERE, MODERATE],
MINOR)` (lines 134-140) and involvement flags (lines 143-148);
rows mapped to the OTHER borough are dropped (line 123); there is no
deduplication and no identifier/timestamp dropna. -/
def pyCollisionClean (r : CollisionRaw) : CollisionPyRow :=
  let ki := r.persons_killed.getD 0
  let inj := r.persons_injured.getD 0
  { collision_id := r.collision_id
    crash_datetime := r.crash_datetime
    borough := pyCollisionBorough r.borough
    persons_injured := inj
    persons_killed := ki
    pedestrians_injured := r.pedestrians_injured.getD 0
    pedestrians_killed := r.pedestrians_killed.getD 0
    cyclists_injured := r.cyclists_injured.getD 0
    cyclists_killed := r.cyclists_killed.getD 0
    motorists_injured := r.motorists_injured.getD 0
    motorists_killed := r.motorists_killed.getD 0
    severity_level :=
      if ki > 0 then "FATAL" else if inj ≥ 3 then "SEVERE"
      else if inj > 0 then "MODERATE" else "MINOR"
    involved_pedestrian :=
      decide (r.pedestrians_injured.getD 0 > 0) ||
        decide (r.pedestrians_killed.getD 0 > 0)
    involved_cyclist :=
      decide (r.cyclists_injured.getD 0 > 0) ||
        decide (r.cyclists_killed.getD 0 > 0) }

/-- Legacy `transform_collision_data` (src/transform.py lines 86-159):
empty input returns an empty result immediately (lines 89-91), otherwise
per-row cleaning with OTHER-borough rows dropped. -/
def transformCollisionData (l : List CollisionRaw) : List CollisionPyRow :=
  match l with
  | [] => []
  | l => (l.map pyCollisionClean).filter fun r => decide (r.borough ≠ "OTHER")


/-! ## Lemmas: keyMem and dedupKeepLast -/

theorem keyMem_iff [DecidableEq κ] (key : α → κ) (k : κ) (l : List α) :
    keyMem key k l = true ↔ ∃ r ∈ l, key r = k := by
  simp [keyMem]

theorem mem_of_mem_dedupKeepLast [DecidableEq κ] (key : α → κ) {l : List α}
    {r : α} (h : r ∈ dedupKeepLast key l) : r ∈ l := by
  induction l with
  | nil => simpa [dedupKeepLast] using h
  | cons x xs ih =>
    by_cases hx : keyMem key (key x) xs = true
    · rw [dedupKeepLast, if_pos hx] at h
      exact List.mem_cons_of_mem _ (ih h)
    · rw [dedupKeepLast, if_neg hx] at h
      rcases List.mem_cons.1 h with h | h
      · exact h ▸ List.mem_cons_self _ _
      · exact List.mem_cons_of_mem _ (ih h)

theorem keyNodup_dedupKeepLast [DecidableEq κ] (key : α → κ) (l : List α) :
    KeyNodup key (dedupKeepLast key l) := by
  induction l with
  | nil => simp [KeyNodup, dedupKeepLast]
  | cons x xs ih =>
    by_cases hx : keyMem key (key x) xs = true
    · rw [dedupKeepLast, if_pos hx]
      exact ih
    · rw [dedupKeepLast, if_neg hx]
      refine List.nodup_cons.2 ⟨?_, ih⟩
      intro hmem
      rcases List.mem_map.1 hmem with ⟨s, hs, hks⟩
      exact hx ((keyMem_iff key (key x) xs).2
        ⟨s, mem_of_mem_dedupKeepLast key hs, hks⟩)

theorem dedupKeepLast_eq_self [DecidableEq κ] (key : α → κ) {l : List α}
    (h : KeyNodup key l) : dedupKeepLast key l = l := by
  induction l with
  | nil => rfl
  | cons x xs ih =>
    rcases List.nodup_cons.1 h with ⟨hx, hxs⟩
    rw [dedupKeepLast, if_neg, ih hxs]
    intro hk
    rcases (keyMem_iff key (key x) xs).1 hk with ⟨s, hs, hks⟩
    exact hx (List.mem_map.2 ⟨s, hs, hks⟩)

theorem dedupKeepLast_append [DecidableEq κ] (key : α → κ) (xs ys : List α) :
    dedupKeepLast key (xs ++ ys) =
      (dedupKeepLast key xs).filter (fun r => !keyMem key (key r) ys) ++
        dedupKeepLast key ys := by
  induction xs with
  | nil => simp [dedupKeepLast]
  | cons x xs ih =>
    have hsplit : keyMem key (key x) (xs ++ ys) =
        (keyMem key (key x) xs || keyMem key (key x) ys) := by
      simp [keyMem, List.any_append]
    by_cases h1 : keyMem key (key x) xs = true
    · rw [List.cons_append, dedupKeepLast, if_pos (by rw [hsplit, h1]; rfl),
        ih, dedupKeepLast, if_pos h1]
    · simp only [Bool.not_eq_true] at h1
      by_cases h2 : keyMem key (key x) ys = true
      · rw [List.cons_append, dedupKeepLast,
          if_pos (by rw [hsplit, h1, h2]; rfl), ih, dedupKeepLast,
          if_neg (by rw [h1]; exact Bool.false_ne_true), List.filter_cons]
        simp [h2]
      · simp only [Bool.not_eq_true] at h2
        rw [List.cons_append, dedupKeepLast,
          if_neg (by rw [hsplit, h1, h2]; exact Bool.false_ne_true), ih,
          dedupKeepLast, if_neg (by rw [h1]; exact Bool.false_ne_true),
          List.filter_cons]
        simp [h2]

theorem getLast?_cons_of_ne_nil {l : List α} (h : l ≠ []) (a : α) :
    (a :: l).getLast? = l.getLast? := by
  cases l with
  | nil => exact absurd rfl h
  | cons b t => exact List.getLast?_cons_cons

theorem filter_key_dedupKeepLast [DecidableEq κ] (key : α → κ) (K : κ)
    (l : List α) :
    (dedupKeepLast key l).filter (fun r => decide (key r = K)) =
      ((l.filter (fun r => decide (key r = K))).getLast?).toList := by
  induction l with
  | nil => simp [dedupKeepLast]
  | cons x xs ih =>
    by_cases hx : keyMem key (key x) xs = true
    · rw [dedupKeepLast, if_pos hx, ih, List.filter_cons]
      by_cases hk : key x = K
      · have hne : xs.filter (fun r => decide (key r = K)) ≠ [] := by
          rcases (keyMem_iff key (key x) xs).1 hx with ⟨s, hs, hks⟩
          intro hnil
          have hmem : s ∈ xs.filter (fun r => decide (key r = K)) :=
            List.mem_filter.2 ⟨hs, by simp [hks, hk]⟩
          rw [hnil] at hmem
          exact List.not_mem_nil s hmem
        rw [if_pos (by simp [hk]), getLast?_cons_of_ne_nil hne]
      · simp [hk]
    · rw [dedupKeepLast, if_neg hx, List.filter_cons, List.filter_cons]
      by_cases hk : key x = K
      · have hnil : xs.filter (fun r => decide (key r = K)) = [] := by
          rw [List.filter_eq_nil_iff]
          intro s hs
          simp only [decide_eq_true_eq]
          intro hks
          exact hx ((keyMem_iff key (key x) xs).2 ⟨s, hs, by rw [hks, hk]⟩)
        rw [if_pos (by simp [hk]), ih, hnil]
        simp [hk]
      · rw [if_neg (by simp [hk]), if_neg (by simp [hk]), ih]

/-! ## Lemmas: dedupKeepFirst -/

theorem filter_key_dedupKeepFirstAux [DecidableEq κ] (key : α → κ) (K : κ)
    (l : List α) :
    ∀ seen : List κ,
      (dedupKeepFirstAux key seen l).filter (fun r => decide (key r = K)) =
        if K ∈ seen then []
        else (l.filter (fun r => decide (key r = K))).take 1 := by
  induction l with
  | nil => intro seen; simp [dedupKeepFirstAux]
  | cons r rs ih =>
    intro seen
    by_cases hs : key r ∈ seen
    · by_cases hK : K ∈ seen
      · rw [dedupKeepFirstAux, if_pos hs, ih seen, if_pos hK, if_pos hK]
      · have hrK : ¬ key r = K := fun h => hK (h ▸ hs)
        rw [dedupKeepFirstAux, if_pos hs, ih seen, if_neg hK, if_neg hK,
          List.filter_cons,
          if_neg (show ¬ (decide (key r = K) = true) by simp [hrK])]
    · by_cases hrK : key r = K
      · subst hrK
        rw [dedupKeepFirstAux, if_neg hs, List.filter_cons,
          if_pos (show decide (key r = key r) = true by simp),
          ih (key r :: seen), if_pos (List.mem_cons_self _ _), if_neg hs,
          List.filter_cons,
          if_pos (show decide (key r = key r) = true by simp)]
        simp
      · rw [dedupKeepFirstAux, if_neg hs, List.filter_cons,
          if_neg (show ¬ (decide (key r = K) = true) by simp [hrK]),
          ih (key r :: seen), List.filter_cons,
          if_neg (show ¬ (decide (key r = K) = true) by simp [hrK])]
        by_cases hK : K ∈ seen
        · rw [if_pos (List.mem_cons_of_mem _ hK), if_pos hK]
        · have hnot : K ∉ key r :: seen := by
            intro hmem
            rcases List.mem_cons.1 hmem with h | h
            · exact hrK h.symm
            · exact hK h
          rw [if_neg hnot, if_neg hK]

theorem filter_key_dedupKeepFirst [DecidableEq κ] (key : α → κ) (K : κ)
    (l : List α) :
    (dedupKeepFirst key l).filter (fun r => decide (key r = K)) =
      (l.filter (fun r => decide (key r = K))).take 1 := by
  rw [dedupKeepFirst, filter_key_dedupKeepFirstAux key K l []]
  simp

theorem keyNodup_dedupKeepFirstAux [DecidableEq κ] (key : α → κ)
    (l : List α) :
    ∀ seen : List κ, KeyNodup key (dedupKeepFirstAux key seen l) ∧
      ∀ r ∈ dedupKeepFirstAux key seen l, key r ∉ seen := by
  induction l with
  | nil => intro seen; constructor <;> simp [dedupKeepFirstAux, KeyNodup]
  | cons r rs ih =>
    intro seen
    by_cases hs : key r ∈ seen
    · rw [dedupKeepFirstAux, if_pos hs]
      exact ih seen
    · rw [dedupKeepFirstAux, if_neg hs]
      obtain ⟨ih1, ih2⟩ := ih (key r :: seen)
      refine ⟨List.nodup_cons.2 ⟨?_, ih1⟩, ?_⟩
      · intro hmem
        rcases List.mem_map.1 hmem with ⟨s, hsmem, hks⟩
        exact (ih2 s hsmem) (hks ▸ List.mem_cons_self _ _)
      · intro s hsmem
        rcases List.mem_cons.1 hsmem with h | h
        · exact h ▸ hs
        · exact fun hseen => (ih2 s h) (List.mem_cons_of_mem _ hseen)

theorem keyNodup_dedupKeepFirst [DecidableEq κ] (key : α → κ) (l : List α) :
    KeyNodup key (dedupKeepFirst key l) :=
  (keyNodup_dedupKeepFirstAux key l []).1

/-! ## Lemmas: sorting -/

theorem sortByTs_perm (ts : α → Int) (l : List α) :
    List.Perm (sortByTs ts l) l :=
  List.perm_insertionSort _ l

theorem sorted_sortByTs (ts : α → Int) (l : List α) :
    List.Sorted (tsLe ts) (sortByTs ts l) :=
  List.sorted_insertionSort _ l

theorem sortedByTs_iff_sorted (ts : α → Int) (l : List α) :
    sortedByTs ts l ↔ List.Sorted (tsLe ts) l :=
  List.chain'_iff_pairwise

theorem sortedByTs_sortByTs (ts : α → Int) (l : List α) :
    sortedByTs ts (sortByTs ts l) :=
  (sortedByTs_iff_sorted ts _).2 (sorted_sortByTs ts l)

theorem keyNodup_of_perm [DecidableEq κ] (key : α → κ) {l l' : List α}
    (hp : List.Perm l l') (h : KeyNodup key l) : KeyNodup key l' :=
  ((hp.map key).nodup_iff).1 h

theorem sortByTs_eq_self (ts : α → Int) {l : List α}
    (h : List.Sorted (tsLe ts) l) : sortByTs ts l = l :=
  h.insertionSort_eq

theorem orderedInsert_eq_cons (ts : α → Int) (x : α) {m : List α}
    (h : ∀ z ∈ m, tsLe ts x z) :
    m.orderedInsert (tsLe ts) x = x :: m := by
  cases m with
  | nil => rfl
  | cons b t =>
    rw [List.orderedInsert, if_pos (h b (List.mem_cons_self _ _))]

theorem filter_orderedInsert (ts : α → Int) (p : α → Bool) (x : α)
    {m : List α} (hm : List.Sorted (tsLe ts) m) :
    (m.orderedInsert (tsLe ts) x).filter p =
      if p x then (m.filter p).orderedInsert (tsLe ts) x
      else m.filter p := by
  induction m with
  | nil =>
    cases hpx : p x <;> simp [List.orderedInsert, hpx]
  | cons y m ih =>
    by_cases hxy : tsLe ts x y
    · rw [List.orderedInsert, if_pos hxy, List.filter_cons]
      cases hpx : p x
      · simp
      · have hall : ∀ z ∈ (y :: m).filter p, tsLe ts x z := by
          intro z hz
          rcases List.mem_cons.1 (List.mem_of_mem_filter hz) with h | h
          · exact h ▸ hxy
          · exact le_trans hxy (List.rel_of_sorted_cons hm z h)
        rw [if_pos rfl, if_pos rfl, orderedInsert_eq_cons ts x hall]
    · rw [List.orderedInsert, if_neg hxy, List.filter_cons, List.filter_cons]
      cases hpy : p y
      · rw [if_neg (show ¬ (false = true) by simp),
          if_neg (show ¬ (false = true) by simp), ih hm.of_cons]
      · rw [if_pos (show (true = true) by rfl),
          if_pos (show (true = true) by rfl), ih hm.of_cons]
        cases hpx : p x
        · simp
        · rw [if_pos rfl, if_pos rfl, List.orderedInsert, if_neg hxy]

theorem filter_sortByTs (ts : α → Int) (p : α → Bool) (l : List α) :
    (sortByTs ts l).filter p = sortByTs ts (l.filter p) := by
  induction l with
  | nil => rfl
  | cons x l ih =>
    rw [sortByTs, List.insertionSort,
      filter_orderedInsert ts p x (List.sorted_insertionSort _ l),
      List.filter_cons]
    cases hpx : p x
    · rw [if_neg (by simp), if_neg (by simp)]
      exact ih
    · rw [if_pos rfl, if_pos rfl, sortByTs, List.insertionSort]
      exact congrArg (List.orderedInsert (tsLe ts) x) ih

theorem sortByTs_append (ts : α → Int) (xs ys : List α) :
    sortByTs ts (xs ++ ys) =
      xs.foldr (fun a acc => acc.orderedInsert (tsLe ts) a) (sortByTs ts ys) := by
  induction xs with
  | nil => rfl
  | cons x xs ih =>
    rw [List.cons_append, sortByTs, List.insertionSort, List.foldr_cons]
    exact congrArg (List.orderedInsert (tsLe ts) x) ih

theorem orderedInsert_comm (ts : α → Int) {x y : α} (h : ¬ tsLe ts x y) :
    ∀ l : List α,
      (l.orderedInsert (tsLe ts) y).orderedInsert (tsLe ts) x =
        (l.orderedInsert (tsLe ts) x).orderedInsert (tsLe ts) y := by
  have hyx : tsLe ts y x := by
    unfold tsLe at h ⊢
    omega
  intro l
  induction l with
  | nil =>
    simp only [List.orderedInsert, if_neg h, if_pos hyx]
  | cons z l ih =>
    by_cases h1 : tsLe ts x z
    · have h2 : tsLe ts y z := le_trans hyx h1
      simp only [List.orderedInsert, h1, h2, h, hyx, if_true, if_false,
        ite_true, ite_false]
    · by_cases h2 : tsLe ts y z
      · simp only [List.orderedInsert, h1, h2, h, if_true, if_false,
          ite_true, ite_false]
      · simp only [List.orderedInsert, h1, h2, if_true, if_false,
          ite_true, ite_false]
        rw [ih]

theorem foldr_orderedInsert (ts : α → Int) (x : α) :
    ∀ (m l : List α),
      ((m.orderedInsert (tsLe ts) x).foldr
          (fun a acc => acc.orderedInsert (tsLe ts) a) l) =
        (m.foldr (fun a acc => acc.orderedInsert (tsLe ts) a) l).orderedInsert
          (tsLe ts) x := by
  intro m
  induction m with
  | nil => intro l; rfl
  | cons y m ih =>
    intro l
    by_cases hxy : tsLe ts x y
    · rw [List.orderedInsert, if_pos hxy]
      rfl
    · rw [List.orderedInsert, if_neg hxy, List.foldr_cons, List.foldr_cons,
        ih l]
      exact (orderedInsert_comm ts hxy _).symm

theorem foldr_sortByTs (ts : α → Int) (m : List α) :
    ∀ l : List α,
      ((sortByTs ts m).foldr (fun a acc => acc.orderedInsert (tsLe ts) a) l) =
        m.foldr (fun a acc => acc.orderedInsert (tsLe ts) a) l := by
  induction m with
  | nil => intro l; rfl
  | cons x m ih =>
    intro l
    rw [sortByTs] at ih ⊢
    rw [List.insertionSort, foldr_orderedInsert, ih, List.foldr_cons]

theorem sortByTs_sortByTs_append (ts : α → Int) (xs ys : List α) :
    sortByTs ts (sortByTs ts xs ++ ys) = sortByTs ts (xs ++ ys) := by
  rw [sortByTs_append, sortByTs_append, foldr_sortByTs]

theorem sorted_of_const_ts (ts : α → Int) (t : Int) :
    ∀ {l : List α}, (∀ r ∈ l, ts r = t) → List.Sorted (tsLe ts) l := by
  intro l
  induction l with
  | nil => intro _; simp
  | cons x l ih =>
    intro h
    rw [List.sorted_cons]
    refine ⟨?_, ih fun r hr => h r (List.mem_cons_of_mem _ hr)⟩
    intro b hb
    unfold tsLe
    rw [h x (List.mem_cons_self _ _), h b (List.mem_cons_of_mem _ hb)]

/-! ## Lemmas: the accumulator -/

theorem keyNodup_accumulate_some [DecidableEq κ] (key : α → κ)
    (ts : α → Int) (ex inc : List α) :
    KeyNodup key (accumulate key ts (some ex) inc) := by
  simp only [accumulate]
  exact keyNodup_of_perm key (sortByTs_perm ts _).symm
    (keyNodup_dedupKeepLast key _)

theorem sortedByTs_accumulate_some [DecidableEq κ] (key : α → κ)
    (ts : α → Int) (ex inc : List α) :
    sortedByTs ts (accumulate key ts (some ex) inc) := by
  simp only [accumulate]
  exact sortedByTs_sortByTs ts _

theorem accumulate_filter_ts [DecidableEq κ] (key : α → κ) (ts : α → Int)
    (ex inc : List α) (t : Int) :
    (accumulate key ts (some ex) inc).filter (fun r => decide (ts r = t)) =
      (dedupKeepLast key (ex ++ inc)).filter (fun r => decide (ts r = t)) := by
  simp only [accumulate]
  rw [filter_sortByTs]
  refine sortByTs_eq_self ts (sorted_of_const_ts ts t ?_)
  intro r hr
  have := List.of_mem_filter hr
  simpa using this

theorem accumulate_filter_key [DecidableEq κ] (key : α → κ) (ts : α → Int)
    (ex inc : List α) (K : κ) (h : keyMem key K inc = true) :
    (accumulate key ts (some ex) inc).filter (fun r => decide (key r = K)) =
      ((inc.filter (fun r => decide (key r = K))).getLast?).toList := by
  have hfil : inc.filter (fun r => decide (key r = K)) ≠ [] := by
    rcases (keyMem_iff key K inc).1 h with ⟨s, hs, hks⟩
    intro hnil
    have hmem : s ∈ inc.filter (fun r => decide (key r = K)) :=
      List.mem_filter.2 ⟨hs, by simp [hks]⟩
    rw [hnil] at hmem
    exact List.not_mem_nil s hmem
  simp only [accumulate]
  rw [filter_sortByTs, filter_key_dedupKeepLast, List.filter_append,
    List.getLast?_append_of_ne_nil _ hfil]
  cases (inc.filter (fun r => decide (key r = K))).getLast? <;> rfl

theorem accumulate_mem_key [DecidableEq κ] (key : α → κ) (ts : α → Int)
    (ex inc : List α) (K : κ) (h : keyMem key K inc = true) {r : α}
    (hr : r ∈ accumulate key ts (some ex) inc) (hk : key r = K) : r ∈ inc := by
  have hmem : r ∈ (accumulate key ts (some ex) inc).filter
      (fun r => decide (key r = K)) :=
    List.mem_filter.2 ⟨hr, by simp [hk]⟩
  rw [accumulate_filter_key key ts ex inc K h] at hmem
  have hopt : (inc.filter (fun r => decide (key r = K))).getLast? = some r := by
    cases hg : (inc.filter (fun r => decide (key r = K))).getLast? with
    | none =>
      rw [hg] at hmem
      exact absurd hmem (by simp)
    | some a =>
      rw [hg] at hmem
      have hra : r = a := by simpa using hmem
      rw [hra]
  have hlast : r ∈ (inc.filter (fun s => decide (key s = K))).getLast? := by
    rw [hopt]
    rfl
  exact List.mem_of_mem_filter (List.mem_of_mem_getLast? hlast)

theorem accumulate_empty_incoming [DecidableEq κ] (key : α → κ)
    (ts : α → Int) {ex : List α} (h1 : KeyNodup key ex)
    (h2 : sortedByTs ts ex) :
    accumulate key ts (some ex) [] = ex := by
  simp only [accumulate, List.append_nil]
  rw [dedupKeepLast_eq_self key h1,
    sortByTs_eq_self ts ((sortedByTs_iff_sorted ts ex).1 h2)]

theorem accumulate_empty_subset [DecidableEq κ] (key : α → κ)
    (ts : α → Int) (ex : List α) {r : α}
    (hr : r ∈ accumulate key ts (some ex) []) : r ∈ ex := by
  simp only [accumulate, List.append_nil] at hr
  exact mem_of_mem_dedupKeepLast key ((sortByTs_perm ts _).mem_iff.1 hr)

theorem dedup_append_filter [DecidableEq κ] (key : α → κ) (ex inc : List α) :
    (dedupKeepLast key (ex ++ inc)).filter
        (fun r => !keyMem key (key r) inc) =
      (dedupKeepLast key ex).filter (fun r => !keyMem key (key r) inc) := by
  rw [dedupKeepLast_append key ex inc, List.filter_append, List.filter_filter]
  have h1 : (dedupKeepLast key inc).filter
      (fun r => !keyMem key (key r) inc) = [] := by
    rw [List.filter_eq_nil_iff]
    intro r hr
    have hkm : keyMem key (key r) inc = true :=
      (keyMem_iff key (key r) inc).2 ⟨r, mem_of_mem_dedupKeepLast key hr, rfl⟩
    simp [hkm]
  rw [h1, List.append_nil]
  simp [Bool.and_self]

theorem accumulate_idem_some [DecidableEq κ] (key : α → κ) (ts : α → Int)
    (ex inc : List α) :
    accumulate key ts (some (accumulate key ts (some ex) inc)) inc =
      accumulate key ts (some ex) inc := by
  simp only [accumulate]
  set D := dedupKeepLast key (ex ++ inc) with hD
  have hMnd : KeyNodup key (sortByTs ts D) :=
    keyNodup_of_perm key (sortByTs_perm ts D).symm
      (keyNodup_dedupKeepLast key _)
  rw [dedupKeepLast_append key (sortByTs ts D) inc,
    dedupKeepLast_eq_self key hMnd, filter_sortByTs]
  have hDfilter : D.filter (fun r => !keyMem key (key r) inc) =
      (dedupKeepLast key ex).filter (fun r => !keyMem key (key r) inc) := by
    rw [hD]
    exact dedup_append_filter key ex inc
  rw [hDfilter, sortByTs_sortByTs_append, hD,
    dedupKeepLast_append key ex inc]

/-! ## Lemmas: the accumulator under the sort_values contract -/

theorem sortSpec_sortByTs (ts : α → Int) : SortSpec ts (sortByTs ts) :=
  fun l => ⟨sortByTs_perm ts l, sorted_sortByTs ts l⟩

theorem accumulateWith_perm_dedup [DecidableEq κ] (key : α → κ)
    {ts : α → Int} {sortFn : List α → List α} (hs : SortSpec ts sortFn)
    (ex inc : List α) :
    List.Perm (accumulateWith key sortFn (some ex) inc)
      (dedupKeepLast key (ex ++ inc)) :=
  (hs (dedupKeepLast key (ex ++ inc))).1

theorem sortedByTs_accumulateWith [DecidableEq κ] (key : α → κ)
    {ts : α → Int} {sortFn : List α → List α} (hs : SortSpec ts sortFn)
    (ex inc : List α) :
    sortedByTs ts (accumulateWith key sortFn (some ex) inc) :=
  (sortedByTs_iff_sorted ts _).2 (hs (dedupKeepLast key (ex ++ inc))).2

theorem keyNodup_accumulateWith [DecidableEq κ] (key : α → κ)
    {ts : α → Int} {sortFn : List α → List α} (hs : SortSpec ts sortFn)
    (ex inc : List α) :
    KeyNodup key (accumulateWith key sortFn (some ex) inc) :=
  keyNodup_of_perm key (accumulateWith_perm_dedup key hs ex inc).symm
    (keyNodup_dedupKeepLast key _)

theorem accumulateWith_idem_perm [DecidableEq κ] (key : α → κ)
    {ts : α → Int} {sortFn : List α → List α} (hs : SortSpec ts sortFn)
    (ex inc : List α) :
    List.Perm
      (accumulateWith key sortFn
        (some (accumulateWith key sortFn (some ex) inc)) inc)
      (accumulateWith key sortFn (some ex) inc) := by
  show List.Perm
    (sortFn (dedupKeepLast key
      (sortFn (dedupKeepLast key (ex ++ inc)) ++ inc)))
    (sortFn (dedupKeepLast key (ex ++ inc)))
  set D := dedupKeepLast key (ex ++ inc) with hD
  have hnd : KeyNodup key (sortFn D) :=
    keyNodup_of_perm key (hs D).1.symm (keyNodup_dedupKeepLast key _)
  rw [dedupKeepLast_append key (sortFn D) inc, dedupKeepLast_eq_self key hnd]
  have h1 : List.Perm
      ((sortFn D).filter (fun r => !keyMem key (key r) inc))
      (D.filter (fun r => !keyMem key (key r) inc)) :=
    List.Perm.filter _ (hs D).1
  have h2 := h1.append_right (dedupKeepLast key inc)
  have h3 : D.filter (fun r => !keyMem key (key r) inc) ++
      dedupKeepLast key inc = D := by
    rw [hD]
    rw [dedup_append_filter key ex inc, ← dedupKeepLast_append key ex inc]
  rw [h3] at h2
  exact ((hs _).1.trans h2).trans (hs D).1.symm

theorem eq_of_perm_sorted_strict (ts : α → Int) :
    ∀ {l2 l1 : List α}, List.Perm l1 l2 → List.Sorted (tsLe ts) l1 →
      strictSortedByTs ts l2 → l1 = l2 := by
  intro l2
  induction l2 with
  | nil =>
    intro l1 hp _ _
    exact hp.eq_nil
  | cons b t ih =>
    intro l1 hp hsorted hstrict
    cases l1 with
    | nil => exact absurd hp.symm.eq_nil (by simp)
    | cons a s =>
      have hab : a = b := by
        by_contra hne
        have ha2 : a ∈ b :: t := hp.mem_iff.1 (List.mem_cons_self _ _)
        have hat : a ∈ t := (List.mem_cons.1 ha2).resolve_left hne
        have hb1 : b ∈ a :: s := hp.mem_iff.2 (List.mem_cons_self _ _)
        have hbs : b ∈ s :=
          (List.mem_cons.1 hb1).resolve_left (fun h => hne h.symm)
        have hle : ts a ≤ ts b := List.rel_of_sorted_cons hsorted b hbs
        have hpw : List.Pairwise (tsLt ts) (b :: t) :=
          (List.chain'_iff_pairwise).1 hstrict
        have hlt : ts b < ts a := (List.pairwise_cons.1 hpw).1 a hat
        omega
      subst hab
      have hst : List.Perm s t := hp.cons_inv
      rw [ih hst hsorted.of_cons hstrict.tail]

theorem accumulateWith_empty_strict [DecidableEq κ] (key : α → κ)
    {ts : α → Int} {sortFn : List α → List α} (hs : SortSpec ts sortFn)
    {ex : List α} (h1 : KeyNodup key ex) (h2 : strictSortedByTs ts ex) :
    accumulateWith key sortFn (some ex) [] = ex := by
  show sortFn (dedupKeepLast key (ex ++ [])) = ex
  rw [List.append_nil, dedupKeepLast_eq_self key h1]
  exact eq_of_perm_sorted_strict ts (hs ex).1 (hs ex).2 h2

theorem accumulateWith_empty_perm [DecidableEq κ] (key : α → κ)
    {ts : α → Int} {sortFn : List α → List α} (hs : SortSpec ts sortFn)
    (ex : List α) :
    List.Perm (accumulateWith key sortFn (some ex) [])
      (dedupKeepLast key ex) := by
  show List.Perm (sortFn (dedupKeepLast key (ex ++ []))) (dedupKeepLast key ex)
  rw [List.append_nil]
  exact (hs _).1

theorem mem_of_mem_dedupKeepFirstAux [DecidableEq κ] (key : α → κ)
    (l : List α) :
    ∀ seen : List κ, ∀ r ∈ dedupKeepFirstAux key seen l, r ∈ l := by
  induction l with
  | nil => intro seen r hr; simpa [dedupKeepFirstAux] using hr
  | cons x xs ih =>
    intro seen r hr
    by_cases hs : key x ∈ seen
    · rw [dedupKeepFirstAux, if_pos hs] at hr
      exact List.mem_cons_of_mem _ (ih seen r hr)
    · rw [dedupKeepFirstAux, if_neg hs] at hr
      rcases List.mem_cons.1 hr with h | h
      · exact h ▸ List.mem_cons_self _ _
      · exact List.mem_cons_of_mem _ (ih (key x :: seen) r h)

theorem mem_of_mem_dedupKeepFirst [DecidableEq κ] (key : α → κ)
    {l : List α} {r : α} (hr : r ∈ dedupKeepFirst key l) : r ∈ l :=
  mem_of_mem_dedupKeepFirstAux key l [] r hr

/-! ## Lemmas: rule chains -/

theorem collisionSeverity_spec (k i t : Int) :
    (0 < k → collisionSeverity k i t = "FATAL") ∧
    (k ≤ 0 → 3 ≤ i → collisionSeverity k i t = "SEVERE") ∧
    (k ≤ 0 → 0 < i → i < 3 → collisionSeverity k i t = "MODERATE") ∧
    (k ≤ 0 → i ≤ 0 → 0 < t → collisionSeverity k i t = "MINOR") ∧
    (k ≤ 0 → i ≤ 0 → t ≤ 0 → collisionSeverity k i t = "NONE") := by
  unfold collisionSeverity
  refine ⟨fun h1 => ?_, fun h1 h2 => ?_, fun h1 h2 h3 => ?_,
    fun h1 h2 h3 => ?_, fun h1 h2 h3 => ?_⟩
  · rw [if_pos h1]
  · rw [if_neg (by omega), if_pos h2]
  · rw [if_neg (by omega), if_neg (by omega), if_pos h2]
  · rw [if_neg (by omega), if_neg (by omega), if_neg (by omega), if_pos h3]
  · rw [if_neg (by omega), if_neg (by omega), if_neg (by omega),
      if_neg (by omega)]

theorem categorizeWeather_spec (sn ra sh pr vi wi : ℚ) :
    (0 < sn → categorizeWeather sn ra sh pr vi wi = "SNOW") ∧
    (sn ≤ 0 → 0 < ra + sh + pr →
      categorizeWeather sn ra sh pr vi wi = "RAIN") ∧
    (sn ≤ 0 → ra + sh + pr ≤ 0 → vi < 5000 →
      categorizeWeather sn ra sh pr vi wi = "FOG") ∧
    (sn ≤ 0 → ra + sh + pr ≤ 0 → 5000 ≤ vi → 30 < wi →
      categorizeWeather sn ra sh pr vi wi = "WIND") ∧
    (sn ≤ 0 → ra + sh + pr ≤ 0 → 5000 ≤ vi → wi ≤ 30 →
      categorizeWeather sn ra sh pr vi wi = "CLEAR") := by
  unfold categorizeWeather
  refine ⟨fun h1 => ?_, fun h1 h2 => ?_, fun h1 h2 h3 => ?_,
    fun h1 h2 h3 h4 => ?_, fun h1 h2 h3 h4 => ?_⟩
  · rw [if_pos h1]
  · rw [if_neg (not_lt.2 h1), if_pos h2]
  · rw [if_neg (not_lt.2 h1), if_neg (not_lt.2 h2), if_pos h3]
  · rw [if_neg (not_lt.2 h1), if_neg (not_lt.2 h2), if_neg (not_lt.2 h3),
      if_pos h4]
  · rw [if_neg (not_lt.2 h1), if_neg (not_lt.2 h2), if_neg (not_lt.2 h3),
      if_neg (not_lt.2 h4)]

theorem mem_collisionsTransform {l : List CollisionRaw} {r : CollisionRow}
    (hr : r ∈ collisionsTransform l) :
    ∃ m ∈ collisionPreDedup l, r = deriveCollision m := by
  rcases List.mem_map.1 hr with ⟨m, hm, hrm⟩
  exact ⟨m, mem_of_mem_dedupKeepFirst _ hm, hrm.symm⟩

theorem borough_mem_collisionPreDedup {l : List CollisionRaw}
    {m : CollisionMid} (hm : m ∈ collisionPreDedup l) :
    m.borough ∈ validBoroughs := by
  rcases List.mem_filterMap.1 hm with ⟨raw, hraw, hmatch⟩
  have hb : decide (cleanCollisionBorough raw.borough ∈ validBoroughs) =
      true := (List.mem_filter.1 hraw).2
  cases hid : raw.collision_id with
  | none => rw [hid] at hmatch; exact absurd hmatch (by simp)
  | some cid =>
    cases hdt : raw.crash_datetime with
    | none => rw [hid, hdt] at hmatch; exact absurd hmatch (by simp)
    | some dt =>
      rw [hid, hdt] at hmatch
      have hAm := Option.some.inj hmatch
      rw [← hAm]
      exact of_decide_eq_true hb

/-! ## Concrete rows used by witnesses and counterexamples -/

/-- Weather row with the earlier timestamp. -/
def wxEarly : WeatherRow :=
  { borough := "BRONX", datetime := 1, temperature_2m := 0,
    precipitation := 0, visibility := 10000, rain := 0, showers := 0,
    snowfall := 0, wind_speed_10m := 0, weather_category := "CLEAR",
    weather_severity := "LIGHT" }

/-- Weather row with the later timestamp. -/
def wxLate : WeatherRow :=
  { borough := "QUEENS", datetime := 2, temperature_2m := 0,
    precipitation := 0, visibility := 10000, rain := 0, showers := 0,
    snowfall := 0, wind_speed_10m := 0, weather_category := "CLEAR",
    weather_severity := "LIGHT" }

/-- Stored version of collision 7. -/
def colStored : CollisionRow :=
  { collision_id := 7, crash_datetime := 1, borough := "QUEENS",
    persons_injured := 0, persons_killed := 0, pedestrians_injured := 0,
    pedestrians_killed := 0, cyclists_injured := 0, cyclists_killed := 0,
    motorists_injured := 0, motorists_killed := 0, latitude := none,
    longitude := none, has_injuries := false, has_fatalities := false,
    total_involved := 0, severity_level := "NONE" }

/-- Re-ingested, different-valued version of collision 7. -/
def colReingested : CollisionRow :=
  { collision_id := 7, crash_datetime := 1, borough := "QUEENS",
    persons_injured := 1, persons_killed := 0, pedestrians_injured := 0,
    pedestrians_killed := 0, cyclists_injured := 0, cyclists_killed := 0,
    motorists_injured := 0, motorists_killed := 0, latitude := none,
    longitude := none, has_injuries := true, has_fatalities := false,
    total_involved := 1, severity_level := "MODERATE" }

/-- Raw collision with one fatality and five injuries. -/
def rawFatal : CollisionRaw :=
  { collision_id := some 11, crash_datetime := some 5,
    borough := some "Brooklyn", persons_injured := some 5,
    persons_killed := some 1, pedestrians_injured := some 0,
    pedestrians_killed := some 0, cyclists_injured := some 0,
    cyclists_killed := some 0, motorists_injured := some 0,
    motorists_killed := some 0, latitude := none, longitude := none }

/-- Raw collision with every count zero. -/
def rawZero : CollisionRaw :=
  { collision_id := some 12, crash_datetime := some 6,
    borough := some "QUEENS", persons_injured := some 0,
    persons_killed := some 0, pedestrians_injured := some 0,
    pedestrians_killed := some 0, cyclists_injured := some 0,
    cyclists_killed := some 0, motorists_injured := some 0,
    motorists_killed := some 0, latitude := none, longitude := none }

/-- Raw collision whose region is not an enumerated zone. -/
def rawBadBorough : CollisionRaw :=
  { collision_id := some 13, crash_datetime := some 7,
    borough := some "NEW JERSEY", persons_injured := some 0,
    persons_killed := some 0, pedestrians_injured := some 0,
    pedestrians_killed := some 0, cyclists_injured := some 0,
    cyclists_killed := some 0, motorists_injured := some 0,
    motorists_killed := some 0, latitude := none, longitude := none }

/-- Raw weather observation with snowfall 2 and rain 1. -/
def rawSnow : WeatherRaw :=
  { borough := "BRONX", datetime := 3, temperature_2m := none,
    precipitation := some 0, visibility := some 10000, rain := some 1,
    showers := some 0, snowfall := some 2, wind_speed_10m := some 0 }

/-- Weather row sharing timestamp 1 with wxEarly but with a different
borough (the weather master always holds several boroughs per hourly
timestamp). -/
def wxTieB : WeatherRow :=
  { borough := "QUEENS", datetime := 1, temperature_2m := 0,
    precipitation := 0, visibility := 10000, rain := 0, showers := 0,
    snowfall := 0, wind_speed_10m := 0, weather_category := "CLEAR",
    weather_severity := "LIGHT" }

/-- Tie-reversing conforming sort: sorted output, permutation of the input,
but rows sharing a timestamp come back in reversed relative order — 
behavior permitted to `sort_values` under its default unstable
`kind='quicksort'`. -/
def revTieSort (l : List WeatherRow) : List WeatherRow :=
  sortByTs weatherTs l.reverse

theorem sortSpec_revTieSort : SortSpec weatherTs revTieSort := fun l =>
  ⟨(sortByTs_perm weatherTs l.reverse).trans (List.reverse_perm l),
   sorted_sortByTs weatherTs l.reverse⟩

/-- Output row of `collisionsTransform [rawFatal]`. -/
def colFatalRow : CollisionRow :=
  { collision_id := 11, crash_datetime := 5, borough := "BROOKLYN",
    persons_injured := 5, persons_killed := 1, pedestrians_injured := 0,
    pedestrians_killed := 0, cyclists_injured := 0, cyclists_killed := 0,
    motorists_injured := 0, motorists_killed := 0, latitude := none,
    longitude := none, has_injuries := true, has_fatalities := true,
    total_involved := 6, severity_level := "FATAL" }

/-! ## Claims -/

/-- C1: Key uniqueness — for every existing master and incoming batch, the
accumulator's merged result contains at most one row per natural key
(weather: (borough, datetime); collisions: collision_id); on the first run
(existing absent) the result is the normalized incoming batch, which is
itself key-duplicate-free in both domains. -/
theorem c1_key_uniqueness :
    (∀ (β γ : Type) [DecidableEq γ] (key : β → γ) (ts : β → Int)
      (ex inc : List β), KeyNodup key (accumulate key ts (some ex) inc)) ∧
    (∀ raw : List WeatherRaw,
      KeyNodup weatherKey (accumulateWeather none (weatherTransform raw))) ∧
    (∀ raw : List CollisionRaw,
      KeyNodup collisionKey
        (accumulateCollisions none (collisionsTransform raw))) := by
  refine ⟨?_, ?_, ?_⟩
  · intro β γ _ key ts ex inc
    exact keyNodup_accumulate_some key ts ex inc
  · intro raw
    exact keyNodup_dedupKeepFirst weatherKey _
  · intro raw
    show KeyNodup collisionKey (collisionsTransform raw)
    unfold KeyNodup collisionsTransform
    rw [List.map_map]
    exact keyNodup_dedupKeepFirst (fun m : CollisionMid => m.collision_id) _

/-- C2: Supersede-on-collision — when the incoming batch carries key K, the
merged result's rows with key K are exactly the last incoming row with that
key (so on a key collision the newly ingested version wins over the stored
one), and every merged row with key K is a member of the incoming batch. -/
theorem c2_supersede_on_collision (β γ : Type) [DecidableEq γ]
    (key : β → γ) (ts : β → Int) (ex inc : List β) (K : γ)
    (h : keyMem key K inc = true) :
    ((accumulate key ts (some ex) inc).filter (fun r => decide (key r = K)) =
      ((inc.filter (fun r => decide (key r = K))).getLast?).toList) ∧
    ∀ r ∈ accumulate key ts (some ex) inc, key r = K → r ∈ inc :=
  ⟨accumulate_filter_key key ts ex inc K h,
   fun r hr hk => accumulate_mem_key key ts ex inc K h hr hk⟩

/-- C2 witness: collision 7 is stored, then re-ingested with different
values; the merged result's row for key 7 is the re-ingested version. -/
theorem c2_witness :
    keyMem collisionKey 7 [colReingested] = true ∧
    (accumulate collisionKey collisionTs (some [colStored])
        [colReingested]).filter (fun r => decide (collisionKey r = 7)) =
      [colReingested] := by
  refine ⟨by decide, ?_⟩
  rw [(c2_supersede_on_collision CollisionRow Int collisionKey collisionTs
    [colStored] [colReingested] 7 (by decide)).1]
  decide

/-- C3 counterexample: under a sort function permitted by the sort_values
contract (sorted permutation of the input; the default quicksort kind makes
no stability promise) re-merging the same batch returns the two rows sharing
timestamp 1 in the opposite order, so the twice-merged result differs from
the once-merged one — exact idempotence is not a program guarantee. -/
theorem c3_counterexample :
    SortSpec weatherTs revTieSort ∧
    accumulateWith weatherKey revTieSort
        (some (accumulateWith weatherKey revTieSort
          (some [wxEarly, wxTieB]) [])) [] ≠
      accumulateWith weatherKey revTieSort (some [wxEarly, wxTieB]) [] :=
  ⟨sortSpec_revTieSort, by decide⟩

/-- C3 (amended): for every sort function satisfying the sort_values
contract, re-merging the same incoming batch into the merged result adds no
duplicate rows and returns the same rows again: the twice-merged result is a
permutation of the once-merged result, key-unique and sorted; only the
relative order of rows sharing a timestamp may differ, because the default
sort kind is not stable. -/
theorem c3_idempotence (β γ : Type) [DecidableEq γ] (key : β → γ)
    (ts : β → Int) (sortFn : List β → List β) (hs : SortSpec ts sortFn)
    (ex inc : List β) :
    List.Perm
      (accumulateWith key sortFn
        (some (accumulateWith key sortFn (some ex) inc)) inc)
      (accumulateWith key sortFn (some ex) inc) ∧
    KeyNodup key (accumulateWith key sortFn
      (some (accumulateWith key sortFn (some ex) inc)) inc) ∧
    sortedByTs ts (accumulateWith key sortFn
      (some (accumulateWith key sortFn (some ex) inc)) inc) :=
  ⟨accumulateWith_idem_perm key hs ex inc,
   keyNodup_accumulateWith key hs _ inc,
   sortedByTs_accumulateWith key hs _ inc⟩

/-- C3 witness: the contract instance sortByTs at a concrete master and
batch with a timestamp tie. -/
theorem c3_witness :
    SortSpec weatherTs (sortByTs weatherTs) ∧
    List.Perm
      (accumulateWith weatherKey (sortByTs weatherTs)
        (some (accumulateWith weatherKey (sortByTs weatherTs)
          (some [wxLate, wxEarly]) [wxTieB])) [wxTieB])
      (accumulateWith weatherKey (sortByTs weatherTs)
        (some [wxLate, wxEarly]) [wxTieB]) :=
  ⟨sortSpec_sortByTs weatherTs,
   (c3_idempotence WeatherRow (String × Int) weatherKey weatherTs
     (sortByTs weatherTs) (sortSpec_sortByTs weatherTs)
     [wxLate, wxEarly] [wxTieB]).1⟩

/-- C4 counterexample: on the first run (existing master absent) the code
stores the incoming batch without sorting it, so the claim's "including
absent" part fails: with incoming [wxLate, wxEarly] the merged result is not
ascending in the timestamp. -/
theorem c4_counterexample :
    ¬ sortedByTs weatherTs (accumulateWeather none [wxLate, wxEarly]) := by
  decide

/-- C4 (amended): when a master exists, for every sort function satisfying
the sort_values contract the merged result is ascending in the domain
timestamp between adjacent rows and consists of exactly the
post-deduplication rows (a permutation of them); the relative order of rows
sharing a timestamp is implementation-defined, because the default sort
kind is not stable; on the first run the result is the incoming batch in
its given order, unsorted. -/
theorem c4_monotonic_ordering (β γ : Type) [DecidableEq γ] (key : β → γ)
    (ts : β → Int) (sortFn : List β → List β) (hs : SortSpec ts sortFn)
    (ex inc : List β) :
    sortedByTs ts (accumulateWith key sortFn (some ex) inc) ∧
    List.Perm (accumulateWith key sortFn (some ex) inc)
      (dedupKeepLast key (ex ++ inc)) ∧
    accumulateWith key sortFn none inc = inc :=
  ⟨sortedByTs_accumulateWith key hs ex inc,
   accumulateWith_perm_dedup key hs ex inc, rfl⟩

/-- C4 witness: the contract instance sortByTs at a concrete master and
batch. -/
theorem c4_witness :
    sortedByTs weatherTs (accumulateWith weatherKey (sortByTs weatherTs)
      (some [wxLate]) [wxEarly]) ∧
    List.Perm
      (accumulateWith weatherKey (sortByTs weatherTs)
        (some [wxLate]) [wxEarly])
      (dedupKeepLast weatherKey ([wxLate] ++ [wxEarly])) ∧
    accumulateWith weatherKey (sortByTs weatherTs) none [wxEarly] =
      [wxEarly] :=
  c4_monotonic_ordering WeatherRow (String × Int) weatherKey weatherTs
    (sortByTs weatherTs) (sortSpec_sortByTs weatherTs) [wxLate] [wxEarly]

/-- C5 counterexample: a master that is not sorted by timestamp (exactly
what a first run leaves behind) is re-sorted even by an empty-batch merge,
so the result is not equal to the master row-for-row. -/
theorem c5_counterexample :
    accumulateWeather (some [wxLate, wxEarly]) [] ≠ [wxLate, wxEarly] := by
  decide

/-- C5 (amended): for every sort function satisfying the sort_values
contract, merging an empty incoming batch returns exactly the rows of the
deduplicated existing master (a permutation of them; for a key-unique
master, the same rows and the same count); it returns the master unchanged
row-for-row when the master is key-unique and strictly increasing in its
timestamp — with rows sharing a timestamp the order of the result depends
on the sort kind, and a first-run master need not even be sorted. -/
theorem c5_empty_batch_noop (β γ : Type) [DecidableEq γ] (key : β → γ)
    (ts : β → Int) (sortFn : List β → List β) (hs : SortSpec ts sortFn)
    (ex : List β) :
    List.Perm (accumulateWith key sortFn (some ex) [])
      (dedupKeepLast key ex) ∧
    (KeyNodup key ex →
      List.Perm (accumulateWith key sortFn (some ex) []) ex) ∧
    (KeyNodup key ex → strictSortedByTs ts ex →
      accumulateWith key sortFn (some ex) [] = ex) := by
  refine ⟨accumulateWith_empty_perm key hs ex, ?_, ?_⟩
  · intro h1
    have := accumulateWith_empty_perm key hs ex
    rwa [dedupKeepLast_eq_self key h1] at this
  · intro h1 h2
    exact accumulateWith_empty_strict key hs h1 h2

/-- C5 witness: a two-row key-distinct weather master with strictly
increasing timestamps is returned unchanged by an empty-batch merge. -/
theorem c5_witness :
    KeyNodup weatherKey [wxEarly, wxLate] ∧
    strictSortedByTs weatherTs [wxEarly, wxLate] ∧
    accumulateWith weatherKey (sortByTs weatherTs)
        (some [wxEarly, wxLate]) [] = [wxEarly, wxLate] :=
  ⟨by decide, by decide,
   (c5_empty_batch_noop WeatherRow (String × Int) weatherKey weatherTs
     (sortByTs weatherTs) (sortSpec_sortByTs weatherTs)
     [wxEarly, wxLate]).2.2 (by decide) (by decide)⟩

/-- C6: Normalizer empty-input policy — each normalizer (the legacy
transform_weather_data / transform_collision_data with their explicit empty
guards and the two updated transformers) maps an empty batch to an empty
result without error, and an empty normalized batch contributes no row of
its own to accumulation (every merged row already belongs to the existing
master). -/
theorem c6_empty_input_policy :
    transformWeatherData [] = [] ∧ transformCollisionData [] = [] ∧
    weatherTransform [] = [] ∧ collisionsTransform [] = [] ∧
    ∀ (β γ : Type) [DecidableEq γ] (key : β → γ) (ts : β → Int)
      (ex : List β) (r : β), r ∈ accumulate key ts (some ex) [] → r ∈ ex := by
  refine ⟨rfl, rfl, rfl, rfl, ?_⟩
  intro β γ _ key ts ex r hr
  exact accumulate_empty_subset key ts ex hr

/-- C6 witness: merging an empty batch into the one-row master [wxEarly]
yields only rows of that master. -/
theorem c6_witness :
    wxEarly ∈ accumulate weatherKey weatherTs (some [wxEarly]) [] ∧
    wxEarly ∈ [wxEarly] := by
  have hmem : wxEarly ∈ accumulate weatherKey weatherTs (some [wxEarly]) [] :=
    by decide
  exact ⟨hmem, c6_empty_input_policy.2.2.2.2 WeatherRow (String × Int)
    weatherKey weatherTs [wxEarly] wxEarly hmem⟩

/-- C7: Collision severity rule priority — for every row of the collisions
normalizer's output, severity_level follows the ordered rules fatality
count, then injury thresholds, then total involvement, over
FATAL > SEVERE > MODERATE > MINOR > NONE; in particular a record with
persons_killed = 1 and persons_injured = 5 classifies FATAL (the fatality
check short-circuits the injury checks) and an all-zero record classifies
NONE. -/
theorem c7_severity_priority :
    (∀ (l : List CollisionRaw) (r : CollisionRow), r ∈ collisionsTransform l →
      (0 < r.persons_killed → r.severity_level = "FATAL") ∧
      (r.persons_killed ≤ 0 → 3 ≤ r.persons_injured →
        r.severity_level = "SEVERE") ∧
      (r.persons_killed ≤ 0 → 0 < r.persons_injured → r.persons_injured < 3 →
        r.severity_level = "MODERATE") ∧
      (r.persons_killed ≤ 0 → r.persons_injured ≤ 0 → 0 < r.total_involved →
        r.severity_level = "MINOR") ∧
      (r.persons_killed ≤ 0 → r.persons_injured ≤ 0 → r.total_involved ≤ 0 →
        r.severity_level = "NONE")) ∧
    (collisionsTransform [rawFatal]).map (fun r => r.severity_level) =
      ["FATAL"] ∧
    (collisionsTransform [rawZero]).map (fun r => r.severity_level) =
      ["NONE"] := by
  refine ⟨?_, by decide, by decide⟩
  intro l r hr
  rcases mem_collisionsTransform hr with ⟨m, _, rfl⟩
  exact collisionSeverity_spec m.persons_killed m.persons_injured
    (collisionTotal m)

/-- C7 witness: the transformed row of rawFatal has a positive fatality
count and classifies FATAL. -/
theorem c7_witness :
    colFatalRow ∈ collisionsTransform [rawFatal] ∧
    0 < colFatalRow.persons_killed ∧
    colFatalRow.severity_level = "FATAL" := by
  have hmem : colFatalRow ∈ collisionsTransform [rawFatal] := by decide
  exact ⟨hmem, by decide,
    (c7_severity_priority.1 [rawFatal] colFatalRow hmem).1 (by decide)⟩

/-- C8: Weather category rule priority — weather_category is assigned by
first matching rule in the order SNOW, RAIN, FOG, WIND, default CLEAR; in
particular a record with snowfall 2 and rain 1 classifies SNOW through the
whole weather normalizer. -/
theorem c8_weather_category_priority :
    (∀ sn ra sh pr vi wi : ℚ,
      (0 < sn → categorizeWeather sn ra sh pr vi wi = "SNOW") ∧
      (sn ≤ 0 → 0 < ra + sh + pr →
        categorizeWeather sn ra sh pr vi wi = "RAIN") ∧
      (sn ≤ 0 → ra + sh + pr ≤ 0 → vi < 5000 →
        categorizeWeather sn ra sh pr vi wi = "FOG") ∧
      (sn ≤ 0 → ra + sh + pr ≤ 0 → 5000 ≤ vi → 30 < wi →
        categorizeWeather sn ra sh pr vi wi = "WIND") ∧
      (sn ≤ 0 → ra + sh + pr ≤ 0 → 5000 ≤ vi → wi ≤ 30 →
        categorizeWeather sn ra sh pr vi wi = "CLEAR")) ∧
    (weatherTransform [rawSnow]).map (fun r => r.weather_category) =
      ["SNOW"] :=
  ⟨fun sn ra sh pr vi wi => categorizeWeather_spec sn ra sh pr vi wi,
   by decide⟩

/-- C8 witness: snowfall 2 beats rain 1. -/
theorem c8_witness :
    (0 : ℚ) < 2 ∧ categorizeWeather 2 1 0 0 10000 0 = "SNOW" :=
  ⟨by norm_num,
   (c8_weather_category_priority.1 2 1 0 0 10000 0).1 (by norm_num)⟩

/-- C9: Region normalization — every row of the collisions normalizer's
output carries one of the five enumerated zones or UNKNOWN, and a row whose
region is anything else is discarded (rawBadBorough, region "NEW JERSEY",
produces no output row — nothing is kept under an OTHER label). -/
theorem c9_region_normalization :
    (∀ (l : List CollisionRaw) (r : CollisionRow), r ∈ collisionsTransform l →
      r.borough ∈ validBoroughs) ∧
    collisionsTransform [rawBadBorough] = [] := by
  refine ⟨?_, by decide⟩
  intro l r hr
  rcases mem_collisionsTransform hr with ⟨m, hm, rfl⟩
  exact borough_mem_collisionPreDedup hm

/-- C9 witness: the transformed row of rawFatal carries the valid borough
BROOKLYN. -/
theorem c9_witness :
    colFatalRow ∈ collisionsTransform [rawFatal] ∧
    colFatalRow.borough ∈ validBoroughs := by
  have hmem : colFatalRow ∈ collisionsTransform [rawFatal] := by decide
  exact ⟨hmem, c9_region_normalization.1 [rawFatal] colFatalRow hmem⟩

/-- C10: Normalizer intra-batch deduplication keeps the first occurrence —
each normalizer's output has at most one row per natural key, and the rows
with key K in the output are exactly the first key-K row of the per-row
cleaned batch (pandas drop_duplicates default keep='first'), the opposite
of the accumulator's keep-last policy. -/
theorem c10_normalizer_keeps_first :
    (∀ raw : List WeatherRaw, KeyNodup weatherKey (weatherTransform raw)) ∧
    (∀ (raw : List WeatherRaw) (K : String × Int),
      (weatherTransform raw).filter (fun r => decide (weatherKey r = K)) =
        ((raw.map weatherClean).filter
          (fun r => decide (weatherKey r = K))).take 1) ∧
    (∀ raw : List CollisionRaw,
      KeyNodup collisionKey (collisionsTransform raw)) ∧
    (∀ (raw : List CollisionRaw) (K : Int),
      (collisionsTransform raw).filter
          (fun r => decide (collisionKey r = K)) =
        (((collisionPreDedup raw).filter
            (fun m => decide (m.collision_id = K))).take 1).map
          deriveCollision) := by
  refine ⟨?_, ?_, ?_, ?_⟩
  · intro raw
    exact keyNodup_dedupKeepFirst weatherKey _
  · intro raw K
    exact filter_key_dedupKeepFirst weatherKey K _
  · intro raw
    unfold KeyNodup collisionsTransform
    rw [List.map_map]
    exact keyNodup_dedupKeepFirst (fun m : CollisionMid => m.collision_id) _
  · intro raw K
    show ((dedupKeepFirst (fun m : CollisionMid => m.collision_id)
        (collisionPreDedup raw)).map deriveCollision).filter
        (fun r => decide (collisionKey r = K)) = _
    rw [List.filter_map]
    rw [show ((fun r : CollisionRow => decide (collisionKey r = K)) ∘
        deriveCollision) =
      (fun m : CollisionMid => decide (m.collision_id = K)) from rfl]
    rw [filter_key_dedupKeepFirst
      (fun m : CollisionMid => m.collision_id) K (collisionPreDedup raw)]
